import Mathlib

/-!
Verification of the Study Assistant retrieval-augmented request pipeline.

This file gives a shallow embedding, in Lean 4, of the core of the
repository (agents.py, retriever.py, llm_provider.py, app.py) and proves
or refutes the specified properties of that core.

Text is modelled as `List Char` (Python `str` is a sequence of characters),
machine-level details (network, persistence, the Streamlit UI layer) are
modelled through explicit parameters: the embedding backend and the
generative backend are function parameters that can fail (`Except`), and
the persisted Chroma collection is an explicit list of entries threaded
through the indexing and retrieval operations.
-/

abbrev Text := List Char

namespace StudyAssistant

/-! ## Chunk splitter (langchain RecursiveCharacterTextSplitter)

`retriever.py` builds `RecursiveCharacterTextSplitter(chunk_size=800,
chunk_overlap=150)` and calls `split_text`.  The splitter (from
`langchain_text_splitters`, defaults `separators=["\n\n", "\n", " ", ""]`,
`keep_separator=True`, `strip_whitespace=True`, `length_function=len`) is
embedded below.  Because the program only ever invokes it with the default
separator list, the recursion over the separator list is laid out as one
definition per level (`splitByChar` for `[""]`, `splitBySpace` for
`[" ", ""]`, `splitByNewline` for `["\n", " ", ""]`, `split_text` for
`["\n\n", "\n", " ", ""]`); each level follows `_split_text` of the source
with the separator chosen exactly as the source's selection loop does:
the first separator of the list that occurs in the text (or `""`). -/

/-- Boolean substring test: `re.search(re.escape(sep), text)` on a literal
separator succeeds exactly when `sep` occurs contiguously in `text`. -/
def isSubstr (sep t : Text) : Bool := t.tails.any (fun s => sep.isPrefixOf s)

/-- Python `str.strip()`: drop whitespace from both ends. -/
def pyStrip (t : Text) : Text :=
  ((t.dropWhile Char.isWhitespace).reverse.dropWhile Char.isWhitespace).reverse

/-- Auxiliary scan for splitting on a literal separator: consume the text one
character at a time; whenever the accumulated (reversed) buffer ends with the
separator, the leftmost pending occurrence is complete, so emit the part
before it and restart the buffer.  This computes the same parts as Python
`re.split` on the escaped separator (leftmost, non-overlapping matches). -/
def splitOnSubAux (sep : Text) : Text → Text → List Text
  | [], acc => [acc.reverse]
  | c :: rest, acc =>
      let acc' := c :: acc
      if sep.reverse.isPrefixOf acc' then
        (acc'.drop sep.length).reverse :: splitOnSubAux sep rest []
      else
        splitOnSubAux sep rest acc'

/-- Split `t` at every occurrence of the literal separator `sep`
(non-overlapping, leftmost first), keeping empty parts. -/
def splitOnSub (sep t : Text) : List Text := splitOnSubAux sep t []

/-- `_split_text_with_regex(text, sep, keep_separator=True)` of
langchain_text_splitters: with a non-empty separator the text is split at the
separator and each separator is re-attached to the front of the part that
follows it; with the empty separator the text becomes its list of single
characters (`list(text)`); empty strings are filtered out at the end. -/
def splitWithSep (text sep : Text) : List Text :=
  if sep = [] then
    (text.map (fun c => [c])).filter (· ≠ [])
  else
    match splitOnSub sep text with
    | [] => []
    | p :: ps => (p :: ps.map (fun q => sep ++ q)).filter (· ≠ [])

/-! ### `TextSplitter._merge_splits`

State of the merging loop: emitted docs, the current window of splits, and
the running total length.  `total` is an `Int` because the Python counter is
an exact integer updated by `+=`/`-=`. -/

structure MergeState where
  docs : List Text
  cur : List Text
  total : Int

/-- Sum of the lengths of a window of splits, as an integer. -/
def sumLen (l : List Text) : Int := (l.map (fun t => (t.length : Int))).sum

/-- `TextSplitter._join_docs`: join with the separator, strip whitespace
(default `strip_whitespace=True`), and drop the doc when it is empty. -/
def joinDocs (docs : List Text) (sep : Text) : Option Text :=
  let text := pyStrip (List.intercalate sep docs)
  if text = [] then none else some text

/-- The popping `while` loop inside `_merge_splits`: keep evicting the front
of the window while the total exceeds the chunk overlap, or while the
incoming split (of length `l`) would overflow the chunk size and the window
is nonempty.  `_split_text` always calls `_merge_splits` with separator `""`
(because `keep_separator=True`), so the `separator_len` terms of the source
are zero and are omitted here.  (With the invariant `total = sumLen cur` the
loop condition is false when the window is empty, matching the Python loop,
which never pops from an empty list.) -/
def popLoop (cs co l : Int) : List Text → Int → List Text × Int
  | [], total => ([], total)
  | c :: rest, total =>
      if total > co ∨ (total + l > cs ∧ total > 0) then
        popLoop cs co l rest (total - (c.length : Int))
      else (c :: rest, total)

/-- One iteration of the `for d in splits` loop of `_merge_splits` (with the
program's separator `""`, of length zero): when the incoming split would
overflow the chunk size, emit the joined current window as a doc and shrink
the window with `popLoop`; then append the incoming split to the window. -/
def mergeStep (cs co : Int) (st : MergeState) (d : Text) : MergeState :=
  let l : Int := d.length
  let st' :=
    if st.total + l > cs then
      if st.cur ≠ [] then
        let docs' :=
          match joinDocs st.cur [] with
          | some doc => st.docs ++ [doc]
          | none => st.docs
        let p := popLoop cs co l st.cur st.total
        MergeState.mk docs' p.1 p.2
      else st
    else st
  MergeState.mk st'.docs (st'.cur ++ [d]) (st'.total + l)

/-- `TextSplitter._merge_splits(splits, "")` — the only form the program
uses: fold the merge step over the splits, then emit the final window. -/
def mergeSplits (cs co : Nat) (splits : List Text) : List Text :=
  let st := splits.foldl (mergeStep (cs : Int) (co : Int)) (MergeState.mk [] [] 0)
  match joinDocs st.cur [] with
  | some doc => st.docs ++ [doc]
  | none => st.docs

/-- The `if _good_splits: merged_text = self._merge_splits(...)` flush of
`_split_text`.  With `keep_separator=True` the merge separator is `""`. -/
def mergeRun (cs co : Nat) (good : List Text) : List Text :=
  if good = [] then [] else mergeSplits cs co good

/-- The `for s in splits` loop of `RecursiveCharacterTextSplitter._split_text`:
splits shorter than the chunk size accumulate in `good`; a long split first
flushes the accumulated run through `_merge_splits` and is then handled by
`handleBig` (recursion into the next separator level, or, when no separators
remain, appended whole). -/
def goSplits (cs co : Nat) (handleBig : Text → List Text) :
    List Text → List Text → List Text
  | [], good => mergeRun cs co good
  | s :: rest, good =>
      if s.length < cs then goSplits cs co handleBig rest (good ++ [s])
      else mergeRun cs co good ++ handleBig s ++ goSplits cs co handleBig rest []

/-- `_split_text(text, [""])`: the last-resort level.  The separator selection
loop stops at `""` with no remaining separators, so the text is split into
single characters and a long split would be appended whole. -/
def splitByChar (cs co : Nat) (text : Text) : List Text :=
  goSplits cs co (fun s => [s]) (splitWithSep text []) []

/-- `_split_text(text, [" ", ""])`: if `" "` occurs in the text it is the
chosen separator and long splits recurse into the `[""]` level; otherwise the
selection loop falls through to `""`, which is exactly `splitByChar`. -/
def splitBySpace (cs co : Nat) (text : Text) : List Text :=
  if isSubstr [' '] text then
    goSplits cs co (splitByChar cs co) (splitWithSep text [' ']) []
  else splitByChar cs co text

/-- `_split_text(text, ["\n", " ", ""])`. -/
def splitByNewline (cs co : Nat) (text : Text) : List Text :=
  if isSubstr ['\n'] text then
    goSplits cs co (splitBySpace cs co) (splitWithSep text ['\n']) []
  else splitBySpace cs co text

/-- `RecursiveCharacterTextSplitter.split_text(text)` with the default
separators `["\n\n", "\n", " ", ""]`: the entry point used by
`create_vector_store_from_text` in retriever.py. -/
def split_text (cs co : Nat) (text : Text) : List Text :=
  if isSubstr ['\n', '\n'] text then
    goSplits cs co (splitByNewline cs co) (splitWithSep text ['\n', '\n']) []
  else splitByNewline cs co text

/-! ## Vector index and retrieval (retriever.py)

The persisted Chroma collection is modelled as a list of entries (chunk text
plus its embedding vector); the HuggingFace embedding backend is a function
parameter.  Faults of external backends are values of `Fault`: the code only
ever produces `Fault.raw` (a Python exception propagating unchanged); the
constructor `Fault.retrievalError` exists to express the specification's
typed `RetrievalError`, which lets theorems state whether the code wraps
backend faults in the typed error or not. -/

structure Entry where
  text : Text
  emb : List Int
deriving DecidableEq

/-- External-backend faults.  `raw msg` is an untyped Python exception
carrying its message; `retrievalError msg` is the `RetrievalError` the
specification asks for (the source defines no such type). -/
inductive Fault
  | raw (msg : Text)
  | retrievalError (msg : Text)
deriving DecidableEq

/-- Whether an `Except` result failed with the typed `RetrievalError`. -/
def isRetrievalError : Except Fault (List Text) → Bool
  | .error (.retrievalError _) => true
  | _ => false

/-- Squared Euclidean distance between two embedding vectors (Chroma's
default collection metric is l2; smaller distance = more similar, so
similarity scores are ordered inversely to this distance). -/
def sqDist (a b : List Int) : Int := (List.zipWith (fun x y => (x - y) ^ 2) a b).sum

/-- Similarity score of an entry against a query embedding: the negated l2
distance, so that "higher score = more similar" as in the specification. -/
def simScore (q e : List Int) : Int := -sqDist q e

/-- Insert an element into a list sorted by the key `f`, keeping stability
(an element arriving later is placed after existing equal keys). -/
def insertLe {α : Type} (f : α → Int) (x : α) : List α → List α
  | [] => [x]
  | y :: ys => if f x < f y then x :: y :: ys else y :: insertLe f x ys

/-- Stable sort by an integer key, ascending. -/
def sortByKey {α : Type} (f : α → Int) : List α → List α
  | [] => []
  | x :: xs => insertLe f x (sortByKey f xs)

/-- `Chroma.similarity_search` given an already-computed query embedding:
rank the stored entries by ascending l2 distance to the query (descending
similarity) and return the first `k`.  An empty collection yields `[]`. -/
def similarity_search (store : List Entry) (qEmb : List Int) (k : Nat) : List Entry :=
  (sortByKey (fun e => sqDist qEmb e.emb) store).take k

/-- `retriever.load_vector_store()`: opens the persisted collection (or an
empty one when nothing was persisted yet); no transformation of the data. -/
def load_vector_store (store : List Entry) : List Entry := store

/-- `retriever.retrieve_relevant_chunks(query, k)`: loads the store and runs
`similarity_search(query, k=k)`.  The query is embedded by the embedding
backend first; the source has no `try`/`except` here, so a backend fault
propagates unchanged to the caller.  Returned documents carry only their
`page_content`, modelled as the chunk text. -/
def retrieve_relevant_chunks (embed : Text → Except Fault (List Int))
    (store : List Entry) (query : Text) (k : Nat) : Except Fault (List Text) :=
  match embed query with
  | .error f => .error f
  | .ok qe => .ok ((similarity_search (load_vector_store store) qe k).map (·.text))

/-- `retriever.create_vector_store_from_text(text)`: split the text with
`RecursiveCharacterTextSplitter(chunk_size=800, chunk_overlap=150)`, wrap
each chunk in a `Document`, embed, and `Chroma.from_documents(...,
persist_directory=CHROMA_DIR)`.  langchain-chroma generates fresh UUID ids
when no ids are passed, so `from_documents` **appends** the new documents to
the persisted collection; the prior contents (`store`) survive unchanged. -/
def create_vector_store_from_text (embed : Text → List Int)
    (store : List Entry) (text : Text) : List Entry :=
  store ++ (split_text 800 150 text).map (fun c => Entry.mk c (embed c))

/-! ## Generative backend configuration (llm_provider.py)

`get_llm` is decorated with `@st.cache_resource`: Streamlit memoizes the
constructed client, so every caller in the process receives the one cached
`ChatOllama` instance.  In the embedding `get_llm` is therefore a plain
function of the two environment variables it reads — every call with the
same environment returns the identical configuration value. -/

structure OllamaConfig where
  model : Text
  temperature : ℚ
  max_tokens : Nat
  base_url : Text
  streaming : Bool
deriving DecidableEq

/-- `llm_provider.get_llm()`: `ChatOllama(model=LLM_MODEL or "llama3.2",
temperature=0.2, max_tokens=800, base_url=OLLAMA_API_URL or
"http://localhost:11434", streaming=False)`, cached process-wide. -/
def get_llm (llm_model_env ollama_api_url_env : Option Text) : OllamaConfig :=
  { model := llm_model_env.getD "llama3.2".toList
    temperature := 0.2
    max_tokens := 800
    base_url := ollama_api_url_env.getD "http://localhost:11434".toList
    streaming := false }

/-- The four request kinds of the dispatcher (agents.py). -/
inductive AgentKind
  | explain
  | summarize
  | quiz
  | ragAnswer
deriving DecidableEq

/-- The client each agent function invokes: every one of the four agents
starts with `llm = get_llm()` (agents.py lines 38, 68, 104, 140), so the
configuration is the same cached instance for every kind. -/
def agent_llm (_kind : AgentKind) (llm_model_env ollama_api_url_env : Option Text) :
    OllamaConfig :=
  get_llm llm_model_env ollama_api_url_env

/-! ## Agent dispatch and the pipeline gate (agents.py)

Each agent function builds prompt `|` llm `|` StrOutputParser and runs

  try:
      with _pipeline_lock:
          result = pipeline.invoke(...)
      return str(result)
  except Exception as e:
      return f"[Error from NAME] e"

The execution of one such call is modelled as a function of the gate state
(`Bool`: is `_pipeline_lock` held) returning the Python outcome — a normal
value or a raised exception — together with the gate state on exit.
Blocking of a contended `acquire` is modelled separately by the transition
system in section "Request serializer" below; here the acquire succeeds (the
calling thread eventually holds the lock) and the interest is in which exit
paths release it. -/

/-- Outcome of running a Python block: state of `_pipeline_lock` afterwards
plus either a returned value or a raised exception (message). -/
abbrev PyRun (α : Type) := Bool → Except Text α × Bool

/-- CPython `with lock:` over a fallible body: `acquire()` on entry, run the
body with the lock held, and `release()` on **both** the normal and the
exceptional exit (the context-manager protocol), re-raising any exception. -/
def pyWithLock {α : Type} (body : PyRun α) : PyRun α := fun _free =>
  let r := body true
  (r.1, false)

/-- `try: ... except Exception as e: return handler(e)` — every exception of
the body is caught and turned into a normal return value. -/
def tryExcept {α : Type} (body : PyRun α) (handler : Text → α) : PyRun α := fun l =>
  match body l with
  | (.ok v, l') => (.ok v, l')
  | (.error e, l') => (.ok (handler e), l')

/-- `pipeline.invoke(values)`: one call into the Generative Backend with the
filled prompt; fallible, leaves the lock state alone. -/
def pipelineInvoke (backend : Text → Except Text Text) (prompt : Text) : PyRun Text :=
  fun l => (backend prompt, l)

/-- The fixed error prefix `f"[Error from NAME] ..."` of agents.py. -/
def errorTag (name : Text) : Text := "[Error from ".toList ++ name ++ "] ".toList

/-- PromptTemplate filling for the explanation agent: the template text of
`explain_template` with `question` and `context` substituted for the slots. -/
def explainPromptFilled (question context : Text) : Text :=
  ("\nYou are a helpful study assistant. Explain the following concept in simple clear language.\nUse examples and analogies suitable for an undergraduate student.\n\nQUESTION:\n").toList
  ++ question
  ++ ("\n\nAdditional Context (if available):\n").toList
  ++ context
  ++ ("\n\nProvide a clear, easy explanation.\n").toList

/-- PromptTemplate filling for the summarization agent (`summary_template`). -/
def summaryPromptFilled (notes : Text) : Text :=
  ("\nSummarize the following notes into short bullet points. Include key topics,\ndefinitions, formulas, and important ideas.\n\nNOTES:\n").toList
  ++ notes ++ ("\n").toList

/-- PromptTemplate filling for the quiz agent (`quiz_template`); `num` is
passed as `str(num)`. -/
def quizPromptFilled (num : Nat) (content difficulty : Text) : Text :=
  ("\nGenerate ").toList ++ (toString num).toList
  ++ (" MCQ questions based on the content below.\n\nCONTENT:\n").toList
  ++ content
  ++ ("\n\nDifficulty: ").toList ++ difficulty
  ++ ("\n\nEach question must include:\n- 4 options (A, B, C, D)\n- Correct answer\n- A brief explanation\n\nReturn questions in a clean exam-ready format.\n").toList

/-- PromptTemplate filling for the RAG answering agent (`rag_template`). -/
def ragPromptFilled (context question : Text) : Text :=
  ("\nYou are an AI tutor. Use ONLY the following notes to answer the question.\n\nNOTES:\n").toList
  ++ context
  ++ ("\n\nQUESTION:\n").toList
  ++ question
  ++ ("\n\nGive a clear and accurate answer, cite the note line(s) where appropriate.\n").toList

/-- `agents.explanation_agent(question, context="")`. -/
def explanation_agent (backend : Text → Except Text Text)
    (question context : Text) : PyRun Text :=
  tryExcept (pyWithLock (pipelineInvoke backend (explainPromptFilled question context)))
    (fun e => errorTag "explanation_agent".toList ++ e)

/-- `agents.summarization_agent(notes_text)`. -/
def summarization_agent (backend : Text → Except Text Text) (notes_text : Text) : PyRun Text :=
  tryExcept (pyWithLock (pipelineInvoke backend (summaryPromptFilled notes_text)))
    (fun e => errorTag "summarization_agent".toList ++ e)

/-- `agents.quiz_agent(content, num, difficulty)`. -/
def quiz_agent (backend : Text → Except Text Text)
    (content : Text) (num : Nat) (difficulty : Text) : PyRun Text :=
  tryExcept (pyWithLock (pipelineInvoke backend (quizPromptFilled num content difficulty)))
    (fun e => errorTag "quiz_agent".toList ++ e)

/-- `agents.rag_answer_agent(question, context)`. -/
def rag_answer_agent (backend : Text → Except Text Text)
    (question context : Text) : PyRun Text :=
  tryExcept (pyWithLock (pipelineInvoke backend (ragPromptFilled context question)))
    (fun e => errorTag "rag_answer_agent".toList ++ e)

/-! ## The RAG request handler (app.py, "Chat with Notes (RAG)" branch)

After a submitted query the handler runs

  chunks = retrieve_relevant_chunks(q, k=3)
  context = "\n\n".join([c.page_content for c in chunks])
  answer = rag_answer_agent(q, context)

The arguments the handler passes into the dispatcher are recorded as a
`DispatchCall`; when retrieval raises, the exception propagates (the handler
has no `except`) and no dispatch happens. -/

structure DispatchCall where
  question : Text
  context : Text
deriving DecidableEq

/-- The dispatcher invocation built by the RAG branch of app.py for query
`q`: the retrieved chunks joined with the paragraph separator `"\n\n"`. -/
def rag_dispatch_call (embed : Text → Except Fault (List Int))
    (store : List Entry) (q : Text) : Except Fault DispatchCall :=
  match retrieve_relevant_chunks embed store q 3 with
  | .error f => .error f
  | .ok chunks => .ok (DispatchCall.mk q (List.intercalate ['\n', '\n'] chunks))

/-! ## Request serializer (`_pipeline_lock`, agents.py lines 10-12)

Concurrent callers are modelled as a transition system.  `n` threads each
run one agent function; a thread is `idle` before its request, `waiting`
once it has reached `with _pipeline_lock:` (a `threading.Lock.acquire()`
that blocks until the lock is free), `inBackend` while `pipeline.invoke` is
executing with the lock held, and `finished` once the `with` block has been
exited — by normal return or by a raised exception, both of which release
the lock.  The lock itself is `holder`: `none` when free.  Each thread is
statically assigned one of the four request kinds; all four agent functions
wrap their invocation in the same module-level lock, so the protocol is the
same for every kind. -/

inductive Phase
  | idle
  | waiting
  | inBackend
  | finished
deriving DecidableEq

structure SerializerState (n : Nat) where
  kind : Fin n → AgentKind
  phase : Fin n → Phase
  holder : Option (Fin n)

/-- All threads idle, `_pipeline_lock` free. -/
def serializerInit (n : Nat) (kinds : Fin n → AgentKind) : SerializerState n :=
  SerializerState.mk kinds (fun _ => Phase.idle) none

/-- Interleaving steps of the process.  `acquire` is `threading.Lock`
semantics: it fires only when the lock is free.  `finish` covers both exits
of the `with` block (normal return of `pipeline.invoke` and a raised
exception), since the context manager releases the lock on both. -/
inductive SerializerStep {n : Nat} : SerializerState n → SerializerState n → Prop
  | submit (s : SerializerState n) (i : Fin n) (h : s.phase i = Phase.idle) :
      SerializerStep s (SerializerState.mk s.kind (Function.update s.phase i Phase.waiting) s.holder)
  | acquire (s : SerializerState n) (i : Fin n) (h : s.phase i = Phase.waiting)
      (hl : s.holder = none) :
      SerializerStep s (SerializerState.mk s.kind (Function.update s.phase i Phase.inBackend) (some i))
  | finish (s : SerializerState n) (i : Fin n) (h : s.phase i = Phase.inBackend)
      (hl : s.holder = some i) :
      SerializerStep s (SerializerState.mk s.kind (Function.update s.phase i Phase.finished) none)

/-- States reachable from the initial state by interleaved steps. -/
inductive SerializerReachable (n : Nat) (kinds : Fin n → AgentKind) : SerializerState n → Prop
  | init : SerializerReachable n kinds (serializerInit n kinds)
  | step {s t : SerializerState n} (hs : SerializerReachable n kinds s)
      (st : SerializerStep s t) : SerializerReachable n kinds t

/-! ## Concrete data for witnesses and counterexamples -/

/-- Kind assignment for the two-thread witness: one Explain caller, one
RagAnswer caller. -/
def kinds2 : Fin 2 → AgentKind :=
  fun i => if i = 0 then AgentKind.explain else AgentKind.ragAnswer

/-- The state in which thread 0 has submitted and acquired the gate. -/
def witnessState : SerializerState 2 :=
  SerializerState.mk kinds2
    (Function.update (Function.update (fun _ => Phase.idle) (0 : Fin 2) Phase.waiting)
      (0 : Fin 2) Phase.inBackend)
    (some 0)

/-- A small concrete collection used by witnesses: three chunks whose
embeddings are at distances 25, 1 and 9 from the query embedding `[0]`, so
ranking returns them in the order two, three, one. -/
def demoStore : List Entry :=
  [Entry.mk "one".toList [5], Entry.mk "two".toList [1], Entry.mk "three".toList [3]]

/-- Sum of the lengths of a window of splits (the value the Python counter
`total` tracks when the separator is empty). -/
def sumLenN (l : List Text) : Nat := (l.map List.length).sum

/-- The length of the longest overlap between consecutive chunks: the
largest `n` such that the last `n` characters of `a` are the first `n`
characters of `b`. -/
def sharedOverlap (a b : Text) : Nat :=
  (List.range (min a.length b.length + 1)).foldl
    (fun best n => if a.drop (a.length - n) = b.take n then n else best) 0

/-- Three paragraphs of 700, 700 and 99 characters: the middle consecutive
chunk pair produced by the splitter shares no characters at all. -/
def overlapCexText : Text :=
  List.replicate 700 'A' ++ ['\n', '\n'] ++ List.replicate 700 'B'
    ++ ['\n', '\n'] ++ List.replicate 99 'C'

/-! ## Helper lemmas -/

/-- Lock-holding invariant of the serializer: a thread inside the backend
invocation is the holder of `_pipeline_lock`. -/
theorem serializer_holder_invariant {n : Nat} {kinds : Fin n → AgentKind}
    {s : SerializerState n} (h : SerializerReachable n kinds s) :
    ∀ i : Fin n, s.phase i = Phase.inBackend → s.holder = some i := by
  induction h with
  | init => intro i hi; simp [serializerInit] at hi
  | @step s t hs st ih =>
    cases st with
    | submit i h =>
      intro j hj
      have hj' : Function.update s.phase i Phase.waiting j = Phase.inBackend := hj
      rw [Function.update_apply] at hj'
      show s.holder = some j
      by_cases hij : j = i
      · rw [if_pos hij] at hj'; cases hj'
      · rw [if_neg hij] at hj'; exact ih j hj'
    | acquire i h hl =>
      intro j hj
      have hj' : Function.update s.phase i Phase.inBackend j = Phase.inBackend := hj
      rw [Function.update_apply] at hj'
      show some i = some j
      by_cases hij : j = i
      · rw [hij]
      · rw [if_neg hij] at hj'
        have hh := ih j hj'
        rw [hl] at hh
        cases hh
    | finish i h hl =>
      intro j hj
      have hj' : Function.update s.phase i Phase.finished j = Phase.inBackend := hj
      rw [Function.update_apply] at hj'
      show none = some j
      by_cases hij : j = i
      · rw [if_pos hij] at hj'; cases hj'
      · rw [if_neg hij] at hj'
        have hh := ih j hj'
        rw [hl] at hh
        exact absurd (Option.some.inj hh).symm hij

/-- A `try`/`except` around a `with _pipeline_lock:` block leaves the lock
released whatever the body does. -/
theorem tryExcept_withLock_releases {α : Type} (body : PyRun α)
    (handler : Text → α) (l : Bool) :
    (tryExcept (pyWithLock body) handler l).2 = false := by
  unfold tryExcept pyWithLock
  rcases body true with ⟨r, l'⟩
  cases r <;> rfl

/-- Interspersing the empty separator changes nothing after flattening. -/
theorem flatten_intersperse_nil (l : List Text) :
    (l.intersperse []).flatten = l.flatten := by
  induction l with
  | nil => rfl
  | cons x xs ih =>
    cases xs with
    | nil => rfl
    | cons y ys =>
      simp only [List.intersperse, List.flatten_cons] at *
      rw [List.nil_append, ih]

/-- Joining with the empty separator: the length is the sum of lengths. -/
theorem length_intercalate_nil (l : List Text) :
    (List.intercalate [] l).length = sumLenN l := by
  rw [List.intercalate, flatten_intersperse_nil, sumLenN, List.length_flatten]

/-- Stripping never lengthens a text. -/
theorem length_pyStrip_le (t : Text) : (pyStrip t).length ≤ t.length := by
  have h1 : (t.dropWhile Char.isWhitespace).length ≤ t.length :=
    (List.dropWhile_sublist _).length_le
  have h2 : ((t.dropWhile Char.isWhitespace).reverse.dropWhile Char.isWhitespace).length
      ≤ (t.dropWhile Char.isWhitespace).reverse.length :=
    (List.dropWhile_sublist _).length_le
  rw [List.length_reverse] at h2
  rw [pyStrip, List.length_reverse]
  exact le_trans h2 h1

/-- A doc emitted by `_join_docs` with the empty separator is no longer than
the window it was joined from. -/
theorem joinDocs_length_le (docs : List Text) (doc : Text)
    (h : joinDocs docs [] = some doc) : doc.length ≤ sumLenN docs := by
  simp only [joinDocs] at h
  split at h
  · cases h
  · injection h with h'
    rw [← h']
    calc (pyStrip (List.intercalate [] docs)).length
        ≤ (List.intercalate [] docs).length := length_pyStrip_le _
      _ = sumLenN docs := length_intercalate_nil docs

/-- `sumLenN` distributes over append. -/
theorem sumLenN_append (a b : List Text) : sumLenN (a ++ b) = sumLenN a + sumLenN b := by
  simp [sumLenN]

/-- Specification of the popping loop: it preserves the `total = sumLenN cur`
invariant, and on exit either the window is empty or the loop condition is
false (`total ≤ chunk_overlap`, and appending the incoming split no longer
overflows unless the window emptied). -/
theorem popLoop_spec (cs co l : Int) :
    ∀ (cur : List Text) (total : Int), total = (sumLenN cur : Int) →
      (popLoop cs co l cur total).2 = (sumLenN (popLoop cs co l cur total).1 : Int)
      ∧ ((popLoop cs co l cur total).1 = []
         ∨ ((popLoop cs co l cur total).2 ≤ co
            ∧ ((popLoop cs co l cur total).2 + l ≤ cs
               ∨ (popLoop cs co l cur total).2 ≤ 0))) := by
  intro cur
  induction cur with
  | nil =>
    intro total ht
    refine ⟨?_, Or.inl rfl⟩
    simpa [popLoop] using ht
  | cons c rest ih =>
    intro total ht
    have hsum : (sumLenN (c :: rest) : Int) = (c.length : Int) + (sumLenN rest : Int) := by
      simp [sumLenN]
    by_cases hcond : total > co ∨ (total + l > cs ∧ total > 0)
    · have hunf : popLoop cs co l (c :: rest) total
          = popLoop cs co l rest (total - (c.length : Int)) := by
        simp only [popLoop, if_pos hcond]
      rw [hunf]
      apply ih
      rw [ht, hsum]
      ring
    · have hunf : popLoop cs co l (c :: rest) total = (c :: rest, total) := by
        simp only [popLoop, if_neg hcond]
      rw [hunf]
      refine ⟨ht, Or.inr ?_⟩
      constructor
      · omega
      · omega

/-- One merge step preserves the invariant: the counter matches the window,
the window never exceeds the chunk size, and every emitted doc is within the
chunk size — provided every incoming split is shorter than the chunk size. -/
theorem mergeStep_inv (cs co : Int) (st : MergeState) (d : Text)
    (hd : (d.length : Int) < cs)
    (h1 : st.total = (sumLenN st.cur : Int))
    (h2 : (sumLenN st.cur : Int) ≤ cs)
    (h3 : ∀ c ∈ st.docs, (c.length : Int) ≤ cs) :
    (mergeStep cs co st d).total = (sumLenN (mergeStep cs co st d).cur : Int)
    ∧ (sumLenN (mergeStep cs co st d).cur : Int) ≤ cs
    ∧ ∀ c ∈ (mergeStep cs co st d).docs, (c.length : Int) ≤ cs := by
  simp only [mergeStep]
  by_cases hov : st.total + (d.length : Int) > cs
  · rw [if_pos hov]
    by_cases hcur : st.cur ≠ []
    · rw [if_pos hcur]
      have hp := popLoop_spec cs co (d.length : Int) st.cur st.total h1
      set p := popLoop cs co (d.length : Int) st.cur st.total with hpdef
      have hnn : (0 : Int) ≤ (sumLenN p.1 : Int) := Int.natCast_nonneg _
      refine ⟨?_, ?_, ?_⟩
      · rw [sumLenN_append]
        push_cast
        rw [hp.1]
        simp [sumLenN]
      · rw [sumLenN_append]
        push_cast
        rcases hp.2 with hnil | ⟨hco, hcs2⟩
        · rw [hnil] at hp ⊢
          simp only [sumLenN, List.map_nil, List.sum_nil, Nat.cast_zero]
          simp only [sumLenN, List.map_nil, List.sum_nil, Nat.cast_zero] at hp
          simp [sumLenN]
          omega
        · rw [← hp.1]
          simp only [sumLenN, List.map_cons, List.map_nil, List.sum_cons, List.sum_nil]
          omega
      · cases hj : joinDocs st.cur [] with
        | none =>
          simp only [hj]
          exact h3
        | some doc =>
          simp only [hj]
          intro c hc
          rcases List.mem_append.mp hc with hc | hc
          · exact h3 c hc
          · rw [List.mem_singleton.mp hc]
            have hle := joinDocs_length_le st.cur doc hj
            calc ((doc.length : Nat) : Int) ≤ (sumLenN st.cur : Int) := by exact_mod_cast hle
              _ ≤ cs := h2
    · rw [if_neg hcur]
      push_neg at hcur
      rw [hcur] at h1
      simp only [sumLenN, List.map_nil, List.sum_nil, Nat.cast_zero] at h1
      refine ⟨?_, ?_, h3⟩
      · rw [hcur, List.nil_append, h1]
        simp [sumLenN]
      · rw [hcur, List.nil_append]
        simp only [sumLenN, List.map_cons, List.map_nil, List.sum_cons, List.sum_nil]
        omega
  · rw [if_neg hov]
    refine ⟨?_, ?_, h3⟩
    · rw [sumLenN_append, h1]
      push_cast
      simp [sumLenN]
    · rw [sumLenN_append]
      push_cast
      simp only [sumLenN, List.map_cons, List.map_nil, List.sum_cons, List.sum_nil]
      rw [h1] at hov
      simp only [sumLenN] at hov
      omega

/-- The merge fold preserves the invariant along a list of short splits. -/
theorem foldl_mergeStep_inv (cs co : Int) :
    ∀ (splits : List Text) (st : MergeState),
      (∀ d ∈ splits, (d.length : Int) < cs) →
      st.total = (sumLenN st.cur : Int) →
      (sumLenN st.cur : Int) ≤ cs →
      (∀ c ∈ st.docs, (c.length : Int) ≤ cs) →
      (splits.foldl (mergeStep cs co) st).total
          = (sumLenN (splits.foldl (mergeStep cs co) st).cur : Int)
      ∧ (sumLenN (splits.foldl (mergeStep cs co) st).cur : Int) ≤ cs
      ∧ ∀ c ∈ (splits.foldl (mergeStep cs co) st).docs, (c.length : Int) ≤ cs := by
  intro splits
  induction splits with
  | nil =>
    intro st _ h1 h2 h3
    exact ⟨h1, h2, h3⟩
  | cons d rest ih =>
    intro st hall h1 h2 h3
    have hstep := mergeStep_inv cs co st d (hall d (List.mem_cons_self d rest)) h1 h2 h3
    exact ih _ (fun x hx => hall x (List.mem_cons_of_mem d hx)) hstep.1 hstep.2.1 hstep.2.2

/-- Every chunk `_merge_splits` emits is within the chunk size, as long as
every split fed to it is shorter than the chunk size. -/
theorem mergeSplits_le (cs co : Nat) (splits : List Text)
    (h : ∀ d ∈ splits, d.length < cs) :
    ∀ c ∈ mergeSplits cs co splits, c.length ≤ cs := by
  intro c hc
  have hall : ∀ d ∈ splits, ((d.length : Int) < (cs : Int)) := by
    intro d hd
    exact_mod_cast h d hd
  have hinv := foldl_mergeStep_inv (cs : Int) (co : Int) splits (MergeState.mk [] [] 0)
    hall (by simp [sumLenN]) (by simp [sumLenN]) (by intro c hc; cases hc)
  simp only [mergeSplits] at hc
  set st := splits.foldl (mergeStep (cs : Int) (co : Int)) (MergeState.mk [] [] 0) with hst
  revert hc
  split
  · rename_i doc hj
    intro hc
    rcases List.mem_append.mp hc with hc | hc
    · have := hinv.2.2 c hc
      exact_mod_cast this
    · have hcd : c = doc := List.mem_singleton.mp hc
      subst hcd
      have hle := joinDocs_length_le st.cur c hj
      have : (c.length : Int) ≤ (cs : Int) := by
        calc (c.length : Int) ≤ (sumLenN st.cur : Int) := by exact_mod_cast hle
          _ ≤ (cs : Int) := hinv.2.1
      exact_mod_cast this
  · intro hc
    have := hinv.2.2 c hc
    exact_mod_cast this

/-- `mergeRun` emits chunks within the chunk size for short splits. -/
theorem mergeRun_le (cs co : Nat) (good : List Text)
    (h : ∀ g ∈ good, g.length < cs) : ∀ c ∈ mergeRun cs co good, c.length ≤ cs := by
  intro c hc
  simp only [mergeRun] at hc
  split at hc
  · cases hc
  · exact mergeSplits_le cs co good h c hc

/-- The split-processing loop emits chunks within the chunk size, provided
the handler for long splits does. -/
theorem goSplits_le (cs co : Nat) (handleBig : Text → List Text) :
    ∀ (splits good : List Text),
      (∀ s ∈ splits, cs ≤ s.length → ∀ c ∈ handleBig s, c.length ≤ cs) →
      (∀ g ∈ good, g.length < cs) →
      ∀ c ∈ goSplits cs co handleBig splits good, c.length ≤ cs := by
  intro splits
  induction splits with
  | nil =>
    intro good _ hg c hc
    simp only [goSplits] at hc
    exact mergeRun_le cs co good hg c hc
  | cons s rest ih =>
    intro good hbig hg c hc
    simp only [goSplits] at hc
    by_cases hs : s.length < cs
    · rw [if_pos hs] at hc
      refine ih (good ++ [s]) (fun x hx => hbig x (List.mem_cons_of_mem s hx)) ?_ c hc
      intro g hgm
      rcases List.mem_append.mp hgm with hgm | hgm
      · exact hg g hgm
      · rw [List.mem_singleton.mp hgm]
        exact hs
    · rw [if_neg hs] at hc
      rcases List.mem_append.mp hc with hc | hc
      · rcases List.mem_append.mp hc with hc | hc
        · exact mergeRun_le cs co good hg c hc
        · exact hbig s (List.mem_cons_self s rest) (le_of_not_lt hs) c hc
      · exact ih [] (fun x hx => hbig x (List.mem_cons_of_mem s hx))
          (fun g hgm => absurd hgm (List.not_mem_nil g)) c hc

/-- Chunks of the last-resort character level are within the chunk size. -/
theorem splitByChar_le (cs co : Nat) (hcs : 2 ≤ cs) (text : Text) :
    ∀ c ∈ splitByChar cs co text, c.length ≤ cs := by
  intro c hc
  refine goSplits_le cs co (fun s => [s]) (splitWithSep text []) [] ?_ ?_ c hc
  · intro s hs hlen c' _
    exfalso
    have hone : s.length = 1 := by
      simp only [splitWithSep, reduceIte] at hs
      rcases List.mem_map.mp (List.mem_filter.mp hs).1 with ⟨ch, _, hch⟩
      rw [← hch]
      rfl
    omega
  · intro g hgm
    cases hgm

/-- Chunks of the space level are within the chunk size. -/
theorem splitBySpace_le (cs co : Nat) (hcs : 2 ≤ cs) (text : Text) :
    ∀ c ∈ splitBySpace cs co text, c.length ≤ cs := by
  intro c hc
  simp only [splitBySpace] at hc
  split at hc
  · exact goSplits_le cs co _ _ [] (fun s _ _ => splitByChar_le cs co hcs s)
      (fun g hgm => absurd hgm (List.not_mem_nil g)) c hc
  · exact splitByChar_le cs co hcs text c hc

/-- Chunks of the newline level are within the chunk size. -/
theorem splitByNewline_le (cs co : Nat) (hcs : 2 ≤ cs) (text : Text) :
    ∀ c ∈ splitByNewline cs co text, c.length ≤ cs := by
  intro c hc
  simp only [splitByNewline] at hc
  split at hc
  · exact goSplits_le cs co _ _ [] (fun s _ _ => splitBySpace_le cs co hcs s)
      (fun g hgm => absurd hgm (List.not_mem_nil g)) c hc
  · exact splitBySpace_le cs co hcs text c hc

/-- Every chunk of `split_text` is within the chunk size (for any chunk size
of at least 2 and any overlap). -/
theorem split_text_le (cs co : Nat) (hcs : 2 ≤ cs) (text : Text) :
    ∀ c ∈ split_text cs co text, c.length ≤ cs := by
  intro c hc
  simp only [split_text] at hc
  split at hc
  · exact goSplits_le cs co _ _ [] (fun s _ _ => splitByNewline_le cs co hcs s)
      (fun g hgm => absurd hgm (List.not_mem_nil g)) c hc
  · exact splitByNewline_le cs co hcs text c hc

/-- Members of `insertLe f x l` are `x` or members of `l`. -/
theorem mem_insertLe {α : Type} (f : α → Int) (x : α) (l : List α) (y : α)
    (hy : y ∈ insertLe f x l) : y = x ∨ y ∈ l := by
  induction l with
  | nil =>
    simp only [insertLe, List.mem_singleton] at hy
    exact Or.inl hy
  | cons z zs ih =>
    simp only [insertLe] at hy
    split at hy
    · rcases List.mem_cons.mp hy with h | h
      · exact Or.inl h
      · exact Or.inr h
    · rcases List.mem_cons.mp hy with h | h
      · exact Or.inr (List.mem_cons.mpr (Or.inl h))
      · rcases ih h with h' | h'
        · exact Or.inl h'
        · exact Or.inr (List.mem_cons.mpr (Or.inr h'))

/-- Inserting into a key-sorted list keeps it key-sorted. -/
theorem pairwise_insertLe {α : Type} (f : α → Int) (x : α) (l : List α)
    (h : l.Pairwise (fun a b => f a ≤ f b)) :
    (insertLe f x l).Pairwise (fun a b => f a ≤ f b) := by
  induction l with
  | nil => simp [insertLe]
  | cons z zs ih =>
    rcases List.pairwise_cons.mp h with ⟨hz, hzs⟩
    simp only [insertLe]
    split
    · refine List.pairwise_cons.mpr ⟨?_, h⟩
      intro b hb
      rcases List.mem_cons.mp hb with rfl | hb
      · exact le_of_lt ‹f x < f b›
      · exact le_trans (le_of_lt ‹f x < f z›) (hz b hb)
    · refine List.pairwise_cons.mpr ⟨?_, ih hzs⟩
      intro b hb
      rcases mem_insertLe f x zs b hb with rfl | hb
      · exact not_lt.mp ‹¬ f b < f z›
      · exact hz b hb

/-- `sortByKey` sorts by the key, ascending. -/
theorem pairwise_sortByKey {α : Type} (f : α → Int) (l : List α) :
    (sortByKey f l).Pairwise (fun a b => f a ≤ f b) := by
  induction l with
  | nil => exact List.Pairwise.nil
  | cons x xs ih => exact pairwise_insertLe f x _ ih

/-! ## Claims -/

/-- C1.  For every set of concurrent callers across all four request kinds,
at most one invocation of the Generative Backend is active at any instant in
the process: in every reachable state of the serializer transition system,
no two distinct threads are simultaneously inside `pipeline.invoke`. -/
theorem pipeline_invoke_mutual_exclusion {n : Nat} {kinds : Fin n → AgentKind}
    {s : SerializerState n} (h : SerializerReachable n kinds s)
    {i j : Fin n} (hij : i ≠ j) (hi : s.phase i = Phase.inBackend) :
    s.phase j ≠ Phase.inBackend := by
  intro hj
  have h1 := serializer_holder_invariant h i hi
  have h2 := serializer_holder_invariant h j hj
  rw [h1] at h2
  exact hij (Option.some.inj h2)

/-- Witness for C1: in the concrete reachable state where thread 0 (an
Explain request) is inside the backend, thread 1 (a RagAnswer request) is
not. -/
theorem pipeline_invoke_mutual_exclusion_witness :
    witnessState.phase 1 ≠ Phase.inBackend := by
  have h0 : SerializerReachable 2 kinds2 (serializerInit 2 kinds2) :=
    SerializerReachable.init
  have h1 := SerializerReachable.step h0
    (SerializerStep.submit (serializerInit 2 kinds2) 0 rfl)
  have h2 := SerializerReachable.step h1
    (SerializerStep.acquire _ 0 (by simp [serializerInit]) rfl)
  exact pipeline_invoke_mutual_exclusion (s := witnessState) h2
    (i := 0) (j := 1) (by decide) (by simp [witnessState])

/-- C2.  Every dispatch releases the mutual-exclusion gate before returning,
on every exit path — in particular when the Generative Backend invocation
fails — for all four agent functions; consequently a subsequent request
starting from the resulting gate state behaves exactly as one starting from
a free gate (no deadlock after an earlier failure). -/
theorem gate_released_on_every_path
    (backend backend2 : Text → Except Text Text)
    (q c notes content difficulty q2 c2 : Text) (num : Nat) (l0 : Bool) :
    (explanation_agent backend q c l0).2 = false
    ∧ (summarization_agent backend notes l0).2 = false
    ∧ (quiz_agent backend content num difficulty l0).2 = false
    ∧ (rag_answer_agent backend q c l0).2 = false
    ∧ (rag_answer_agent backend2 q2 c2 (explanation_agent backend q c l0).2
        = rag_answer_agent backend2 q2 c2 false) := by
  refine ⟨?_, ?_, ?_, ?_, ?_⟩
  · exact tryExcept_withLock_releases _ _ _
  · exact tryExcept_withLock_releases _ _ _
  · exact tryExcept_withLock_releases _ _ _
  · exact tryExcept_withLock_releases _ _ _
  · rw [show (explanation_agent backend q c l0).2 = false from
      tryExcept_withLock_releases _ _ _]

/-- C3 counterexample.  The dispatcher does not return a typed `AgentError`
value: the error path returns a plain string through the same channel as a
success, so a successful backend reply can be byte-for-byte identical to the
dispatcher's output for a failing backend — the caller cannot distinguish
the two by type (or at all). -/
theorem agent_error_untyped_counterexample :
    explanation_agent (fun _ => .ok "[Error from explanation_agent] boom".toList)
        "q".toList "".toList false
      = explanation_agent (fun _ => .error "boom".toList) "q".toList "".toList false := by
  rfl

/-- C3 amended.  On any backend failure each of the four agent functions
catches the exception locally (the call returns normally, it never
re-raises) and returns the plain string `"[Error from NAME] cause"`, which
carries the originating agent function name and the human-readable cause —
but as text, not as a typed `AgentError` value. -/
theorem agent_failure_caught_and_tagged
    (cause q c notes content difficulty : Text) (num : Nat) (l0 : Bool) :
    explanation_agent (fun _ => .error cause) q c l0
      = (.ok (errorTag "explanation_agent".toList ++ cause), false)
    ∧ summarization_agent (fun _ => .error cause) notes l0
      = (.ok (errorTag "summarization_agent".toList ++ cause), false)
    ∧ quiz_agent (fun _ => .error cause) content num difficulty l0
      = (.ok (errorTag "quiz_agent".toList ++ cause), false)
    ∧ rag_answer_agent (fun _ => .error cause) q c l0
      = (.ok (errorTag "rag_answer_agent".toList ++ cause), false) :=
  ⟨rfl, rfl, rfl, rfl⟩

/-- C4.  Indexing the same text twice doubles the number of stored chunks:
`Chroma.from_documents` appends with freshly generated ids, so re-indexing
the identical document silently duplicates its chunks (the claim demands the
count not double; the code doubles it). -/
theorem reindex_doubles_chunks :
    (create_vector_store_from_text (fun _ => [])
        (create_vector_store_from_text (fun _ => []) [] "hello world".toList)
        "hello world".toList).length
      = 2 * (create_vector_store_from_text (fun _ => []) [] "hello world".toList).length
    ∧ 0 < (create_vector_store_from_text (fun _ => []) [] "hello world".toList).length := by
  constructor <;> decide

/-- C8.  The Chunk Splitter is deterministic — the embedding is a pure
function of the text and the parameters, so two runs on identical input
yield identical chunk sequences — and splitting the empty text yields the
empty sequence. -/
theorem split_text_deterministic_and_empty (cs co : Nat) (t : Text) :
    split_text cs co t = split_text cs co t ∧ split_text cs co [] = [] :=
  ⟨rfl, rfl⟩

/-- C10.  Every agent function obtains its Generative Backend client from the
single cached `get_llm`, and that client is configured with temperature 0.2,
maximum output length 800 and streaming disabled. -/
theorem llm_config_uniform (kind : AgentKind) (me be : Option Text) :
    agent_llm kind me be = get_llm me be
    ∧ (get_llm me be).temperature = 0.2
    ∧ (get_llm me be).max_tokens = 800
    ∧ (get_llm me be).streaming = false :=
  ⟨rfl, rfl, rfl, rfl⟩

/-- C5.  For every query and every `k`, when the Embedding Backend yields an
embedding for the query, `retrieve_relevant_chunks` returns (without error)
the top-ranked chunks: at most `k` of them, with similarity scores
non-increasing in rank order; and an empty Vector Index yields the empty
sequence rather than an error. -/
theorem retrieve_at_most_k_sorted_and_empty
    (embed : Text → Except Fault (List Int)) (store : List Entry) (q : Text)
    (k : Nat) (qe : List Int) (h : embed q = .ok qe) :
    retrieve_relevant_chunks embed store q k
        = .ok ((similarity_search store qe k).map (·.text))
    ∧ (similarity_search store qe k).length ≤ k
    ∧ (similarity_search store qe k).Pairwise
        (fun a b => simScore qe b.emb ≤ simScore qe a.emb)
    ∧ (store = [] → retrieve_relevant_chunks embed store q k = .ok []) := by
  refine ⟨?_, ?_, ?_, ?_⟩
  · simp [retrieve_relevant_chunks, load_vector_store, h]
  · calc (similarity_search store qe k).length
        ≤ (List.take k (sortByKey (fun e => sqDist qe e.emb) store)).length := le_of_eq rfl
      _ ≤ k := by rw [List.length_take]; exact min_le_left _ _
  · have hs := pairwise_sortByKey (fun e => sqDist qe e.emb) store
    have ht := List.Pairwise.sublist
      (List.take_sublist k (sortByKey (fun e => sqDist qe e.emb) store)) hs
    refine ht.imp ?_
    intro a b hab
    simp only [simScore, neg_le_neg_iff]
    exact hab
  · intro hempty
    subst hempty
    simp [retrieve_relevant_chunks, load_vector_store, h, similarity_search, sortByKey]

/-- Witness for C5 at a concrete store, query and `k = 2`: the backend
embeds the query as `[0]` and the theorem's conclusions hold. -/
theorem retrieve_at_most_k_sorted_and_empty_witness :
    retrieve_relevant_chunks (fun _ => .ok [0]) demoStore "query".toList 2
        = .ok ((similarity_search demoStore [0] 2).map (·.text))
    ∧ (similarity_search demoStore [0] 2).length ≤ 2
    ∧ (similarity_search demoStore [0] 2).Pairwise
        (fun a b => simScore [0] b.emb ≤ simScore [0] a.emb)
    ∧ (demoStore = [] → retrieve_relevant_chunks (fun _ => .ok [0]) demoStore "query".toList 2 = .ok []) :=
  retrieve_at_most_k_sorted_and_empty (fun _ => .ok [0]) demoStore "query".toList 2 [0] rfl

/-- C6 counterexample.  When the Embedding Backend is unavailable the
Retriever does not fail with a typed `RetrievalError`: the raw backend
exception propagates unchanged out of `retrieve_relevant_chunks` (the
function body has no error handling and the repository defines no
`RetrievalError` type). -/
theorem retrieval_fault_opaque_counterexample :
    retrieve_relevant_chunks (fun _ => .error (.raw "connection refused".toList))
        [] "anything".toList 3
      = .error (.raw "connection refused".toList)
    ∧ isRetrievalError
        (retrieve_relevant_chunks (fun _ => .error (.raw "connection refused".toList))
          [] "anything".toList 3) = false :=
  ⟨rfl, rfl⟩

/-- C6 amended.  The Retriever propagates an Embedding Backend fault
unchanged (opaque, not wrapped in any typed error), and the empty-index case
with a working backend is distinguished from backend unavailability by
returning the empty sequence rather than an error. -/
theorem retrieval_faults_opaque_and_empty_ok
    (f : Fault) (store : List Entry) (q : Text) (k : Nat)
    (embed : Text → Except Fault (List Int)) (qe : List Int) (h : embed q = .ok qe) :
    retrieve_relevant_chunks (fun _ => .error f) store q k = .error f
    ∧ isRetrievalError (retrieve_relevant_chunks (fun _ => .error (.raw q)) store q k) = false
    ∧ retrieve_relevant_chunks embed [] q k = .ok [] := by
  refine ⟨rfl, rfl, ?_⟩
  simp [retrieve_relevant_chunks, load_vector_store, h, similarity_search, sortByKey]

/-- Witness for C6 (amended) at a concrete fault, store and query. -/
theorem retrieval_faults_opaque_and_empty_ok_witness :
    retrieve_relevant_chunks (fun _ => .error (.raw "down".toList)) demoStore "q".toList 3
        = .error (.raw "down".toList)
    ∧ isRetrievalError
        (retrieve_relevant_chunks (fun _ => .error (.raw "q".toList)) demoStore "q".toList 3) = false
    ∧ retrieve_relevant_chunks (fun _ => .ok [0]) [] "q".toList 3 = .ok [] :=
  retrieval_faults_opaque_and_empty_ok (.raw "down".toList) demoStore "q".toList 3
    (fun _ => .ok [0]) [0] rfl

/-- C9.  For every RagAnswer request, the context slot passed to the
dispatcher is the retrieved chunk texts joined by the paragraph separator
`"\n\n"`, in exactly the ranked order the Retriever returned them. -/
theorem rag_context_is_joined_ranked_chunks
    (embed : Text → Except Fault (List Int)) (store : List Entry) (q : Text)
    (qe : List Int) (h : embed q = .ok qe) :
    rag_dispatch_call embed store q
      = .ok (DispatchCall.mk q
          (List.intercalate ['\n', '\n']
            ((similarity_search store qe 3).map (·.text)))) := by
  simp [rag_dispatch_call, retrieve_relevant_chunks, load_vector_store, h]

/-- Witness for C9: with the concrete demo store the dispatcher receives the
chunks in ranked order two, three, one, joined by blank lines. -/
theorem rag_context_is_joined_ranked_chunks_witness :
    rag_dispatch_call (fun _ => .ok [0]) demoStore "query".toList
      = .ok (DispatchCall.mk "query".toList "two\n\nthree\n\none".toList) := by
  have h := rag_context_is_joined_ranked_chunks (fun _ => .ok [0])
    demoStore "query".toList [0] rfl
  rw [h]
  rfl

set_option maxRecDepth 1000000 in
set_option maxHeartbeats 4000000 in
/-- C7 counterexample.  With the configured parameters (maxChunkSize 800,
overlapSize 150), consecutive chunks need not share 150 characters: on three
paragraphs of 700, 700 and 99 characters the splitter produces exactly those
three chunks, and the consecutive (non-final) pair shares zero characters. -/
theorem chunk_overlap_counterexample :
    split_text 800 150 overlapCexText
      = [List.replicate 700 'A', List.replicate 700 'B', List.replicate 99 'C']
    ∧ sharedOverlap (List.replicate 700 'A') (List.replicate 700 'B') = 0
    ∧ ¬ 150 ≤ sharedOverlap (List.replicate 700 'A') (List.replicate 700 'B') := by
  have h2 : sharedOverlap (List.replicate 700 'A') (List.replicate 700 'B') = 0 := by decide
  refine ⟨by decide, h2, ?_⟩
  rw [h2]
  omega

/-- C7 amended.  Every chunk produced by the Chunk Splitter with the
configured parameters has text length at most maxChunkSize = 800; the
overlap of 150 characters between consecutive chunks is not guaranteed (it
is an upper-bound target of the algorithm and can be zero). -/
theorem chunk_length_le_maxChunkSize (text : Text) :
    ∀ c ∈ split_text 800 150 text, c.length ≤ 800 :=
  split_text_le 800 150 (by norm_num) text

/-- Witness for C7 (amended): the chunk produced for a small concrete text
is within the bound. -/
theorem chunk_length_le_maxChunkSize_witness :
    "hello world".toList ∈ split_text 800 150 "hello world".toList
    ∧ ("hello world".toList : Text).length ≤ 800 :=
  ⟨by decide, chunk_length_le_maxChunkSize "hello world".toList "hello world".toList (by decide)⟩

end StudyAssistant
